import Mathlib

/-!
Verification development for the sqltocsv streaming converter
(src/sqltocsv.go).  The Go source is shallowly embedded: the value
formatter `Converter.toString` and the streaming writer `Converter.Write`
become pure Lean functions; the database cursor (`sql.Rows`), the buffered
CSV writer (`encoding/csv.Writer`) and the output file are modelled as
explicit data.  Machine integers are modelled as `Nat`/`Int`; bytes are
`Nat` values below 256.
-/

/-- Errors are modelled by their message strings (Go `error` values). -/
abbrev GoErr := String

/-- Embeds the Go `ByteArrayConverter int` enumeration (iota constants). -/
abbrev ByteArrayConverter := Nat

/-- Embeds the constant `String = iota` (value 0); renamed to avoid the
Lean `String` type. -/
def StringConv : ByteArrayConverter := 0

/-- Embeds the constant `StdBase64` (value 1). -/
def StdBase64 : ByteArrayConverter := 1

/-- Embeds the constant `URLBase64` (value 2). -/
def URLBase64 : ByteArrayConverter := 2

/-- Embeds the constant `RawStdBase64` (value 3). -/
def RawStdBase64 : ByteArrayConverter := 3

/-- Embeds the constant `RawURLBase64` (value 4). -/
def RawURLBase64 : ByteArrayConverter := 4

/-- Embeds the constant `Hex` (value 5). -/
def HexConv : ByteArrayConverter := 5

/-- Modelled from the spec: the RFC 4648 standard base64 alphabet used by
Go `encoding/base64.StdEncoding` (the library itself is outside src/). -/
def stdAlphabet : List Char :=
  ("ABCDEFGHIJKLMNOPQRSTUVWXYZabcdefghijklmnopqrstuvwxyz0123456789+/").data

/-- Modelled from the spec: the RFC 4648 URL-safe base64 alphabet used by
Go `encoding/base64.URLEncoding` (the library itself is outside src/). -/
def urlAlphabet : List Char :=
  ("ABCDEFGHIJKLMNOPQRSTUVWXYZabcdefghijklmnopqrstuvwxyz0123456789-_").data

/-- Index of a character in an alphabet (the decode table of RFC 4648). -/
def lookupIdx : List Char → Char → Option Nat
  | [], _ => none
  | a :: rest, ch => if a = ch then some 0 else (lookupIdx rest ch).map (· + 1)

/-- Modelled from the spec: RFC 4648 base64 encoding over an alphabet,
with or without `=` padding, as performed by Go
`encoding/base64.Encoding.EncodeToString` on a byte list. -/
def base64Encode (alpha : List Char) (pad : Bool) : List Nat → List Char
  | [] => []
  | [a] =>
    alpha.getD (a / 4) ' ' :: alpha.getD (a % 4 * 16) ' ' ::
      (if pad then ['=', '='] else [])
  | [a, b] =>
    alpha.getD (a / 4) ' ' :: alpha.getD (a % 4 * 16 + b / 16) ' ' ::
      alpha.getD (b % 16 * 4) ' ' :: (if pad then ['='] else [])
  | a :: b :: c :: rest =>
    alpha.getD (a / 4) ' ' :: alpha.getD (a % 4 * 16 + b / 16) ' ' ::
      alpha.getD (b % 16 * 4 + c / 64) ' ' :: alpha.getD (c % 64) ' ' ::
      base64Encode alpha pad rest

/-- Modelled from the spec: strict RFC 4648 base64 decoding matching
`base64Encode` (padding required exactly when `pad` is true, trailing
bits must be zero), as in Go `encoding/base64.Encoding.DecodeString`. -/
def base64Decode (alpha : List Char) (pad : Bool) : List Char → Option (List Nat)
  | [] => some []
  | [_] => none
  | c1 :: c2 :: rest =>
    match lookupIdx alpha c1, lookupIdx alpha c2 with
    | some s1, some s2 =>
      match rest with
      | [] =>
        if pad then none
        else if s2 % 16 = 0 then some [s1 * 4 + s2 / 16] else none
      | c3 :: rest2 =>
        if c3 = '=' then
          if pad ∧ rest2 = ['='] ∧ s2 % 16 = 0 then some [s1 * 4 + s2 / 16]
          else none
        else
          match lookupIdx alpha c3 with
          | some s3 =>
            match rest2 with
            | [] =>
              if pad then none
              else if s3 % 4 = 0 then
                some [s1 * 4 + s2 / 16, s2 % 16 * 16 + s3 / 4]
              else none
            | c4 :: rest3 =>
              if c4 = '=' then
                if pad ∧ rest3 = [] ∧ s3 % 4 = 0 then
                  some [s1 * 4 + s2 / 16, s2 % 16 * 16 + s3 / 4]
                else none
              else
                match lookupIdx alpha c4 with
                | some s4 =>
                  (base64Decode alpha pad rest3).map
                    (fun tail =>
                      (s1 * 4 + s2 / 16) :: (s2 % 16 * 16 + s3 / 4) ::
                        (s3 % 4 * 64 + s4) :: tail)
                | none => none
          | none => none
    | _, _ => none

/-- The sixteen lowercase hexadecimal digits used by Go `encoding/hex`. -/
def hexDigits : List Char := ("0123456789abcdef").data

/-- Modelled from the spec: Go `encoding/hex.EncodeToString` — lowercase
hexadecimal, two characters per byte, no separators. -/
def hexEncode : List Nat → List Char
  | [] => []
  | b :: rest => hexDigits.getD (b / 16) ' ' :: hexDigits.getD (b % 16) ' ' :: hexEncode rest

/-- Modelled from the spec: the hex decoder matching `hexEncode`
(Go `encoding/hex.DecodeString` restricted to lowercase digits). -/
def hexDecode : List Char → Option (List Nat)
  | [] => some []
  | [_] => none
  | c1 :: c2 :: rest =>
    match lookupIdx hexDigits c1, lookupIdx hexDigits c2 with
    | some hi, some lo => (hexDecode rest).map (fun tail => (hi * 16 + lo) :: tail)
    | _, _ => none

/-- Embeds Go `strings.Trim(s, quote)`: removes ALL leading and ALL
trailing double-quote characters (the cutset is the single character
`"`).  Used by `Converter.toString` on JSON-marshaled output. -/
def trimQuotes (s : String) : String :=
  String.mk (((s.data.dropWhile (fun ch => ch = '"')).reverse.dropWhile
    (fun ch => ch = '"')).reverse)

/-- Embeds Go `string([]byte)`: each byte becomes the code point of the
same value (faithful for the ASCII range; UTF-8 re-interpretation of
arbitrary byte sequences is outside the claims). -/
def bytesAsString (bs : List Nat) : String :=
  String.mk (bs.map Char.ofNat)

/-- Tagged union over the dynamic types `Converter.toString` dispatches
on.  Time values carry Go `time.Time.Format` as an opaque function from
layout strings plus the `time.Time.String()` default; floats carry
`fmt.Sprintf(floatFormat, v)` as an opaque function plus the
`strconv.FormatFloat(v, f, -1, w)` shortest fixed rendering — those
renderers are external library code, kept opaque.  `vother` carries the
outcomes of the four capability probes of the fallback chain:
`MarshalJSON` (absent, failing, or succeeding with a string),
`fmt.Stringer`, `json.Marshal`, and the `fmt.Sprintf(pctv, v)` default
representation. -/
inductive GoValue where
  | vnull
  | vstring (s : String)
  | vbytes (bs : List Nat)
  | vbool (b : Bool)
  | vint (i : Int)
  | vuint (n : Nat)
  | vtime (formatWith : String → String) (defaultRepr : String)
  | vfloat (formatWith : String → String) (shortestFixed : String)
  | vother (marshalJSON : Option (Except Unit String)) (stringer : Option String)
      (jsonMarshal : Except Unit String) (goRepr : String)

/-- Embeds the Go `Converter` struct.  `rows` is passed separately to the
writing functions; the pre-processor is the stored
`CsvPreProcessorFunc`. -/
structure Converter where
  Headers : List String
  WriteHeaders : Bool
  TimeFormat : String
  FloatFormat : String
  Delimiter : Char
  byteArrayConverter : ByteArrayConverter
  rowPreProcessor : Option (List String → List String → Bool × List String)

/-- Embeds `New`: default converter (headers on, comma delimiter). -/
def New : Converter :=
  { Headers := []
    WriteHeaders := true
    TimeFormat := ""
    FloatFormat := ""
    Delimiter := ','
    byteArrayConverter := StringConv
    rowPreProcessor := none }

/-- Embeds `Converter.toString`: the dynamic type switch converting one
scanned value to a string.  The `[]byte` switch over the
`ByteArrayConverter` constants (with its `string(val)` default) becomes
an if-chain over the same integer constants; the trailing capability
chain (json.Marshaler, fmt.Stringer, json.Marshal, Sprintf default)
becomes matches over the probe outcomes carried by `vother`. -/
def Converter.toString (c : Converter) (v : GoValue) : String :=
  match v with
  | .vnull => ""
  | .vstring s => s
  | .vbytes bs =>
    if c.byteArrayConverter = StringConv then bytesAsString bs
    else if c.byteArrayConverter = StdBase64 then
      String.mk (base64Encode stdAlphabet true bs)
    else if c.byteArrayConverter = URLBase64 then
      String.mk (base64Encode urlAlphabet true bs)
    else if c.byteArrayConverter = RawStdBase64 then
      String.mk (base64Encode stdAlphabet false bs)
    else if c.byteArrayConverter = RawURLBase64 then
      String.mk (base64Encode urlAlphabet false bs)
    else if c.byteArrayConverter = HexConv then
      String.mk (hexEncode bs)
    else bytesAsString bs
  | .vbool b => if b then ("true") else ("false")
  | .vint i => Int.repr i
  | .vuint n => Nat.repr n
  | .vtime formatWith defaultRepr =>
    if c.TimeFormat ≠ "" then formatWith c.TimeFormat else defaultRepr
  | .vfloat formatWith shortestFixed =>
    if c.FloatFormat ≠ "" then formatWith c.FloatFormat else shortestFixed
  | .vother marshalJSON stringer jsonMarshal goRepr =>
    match marshalJSON with
    | some (.ok jsonData) => trimQuotes jsonData
    | _ =>
      match stringer with
      | some s => s
      | none =>
        match jsonMarshal with
        | .ok jsonData => trimQuotes jsonData
        | .error _ => goRepr

/-- State of the buffered CSV writer (`encoding/csv.Writer` over a
`bufio.Writer`): rows accepted by `Write` sit in `pending` until `Flush`
moves them to `flushed` (the bytes visible in the underlying output);
`writeCalls` counts the `Write` calls made so far, indexing the sink's
failure schedule. -/
structure CsvWriterState where
  pending : List (List String)
  flushed : List (List String)
  writeCalls : Nat

/-- Rows actually handed to the csv writer so far, in order (flushed or
still buffered). -/
def CsvWriterState.written (st : CsvWriterState) : List (List String) :=
  st.flushed ++ st.pending

/-- Embeds `csv.Writer.Write`: the k-th call fails with the error the
sink's failure schedule assigns to k; on success the row is buffered. -/
def csvWriterWrite (sinkErr : Nat → Option GoErr) (st : CsvWriterState)
    (row : List String) : Except GoErr CsvWriterState :=
  match sinkErr st.writeCalls with
  | some e => .error e
  | none => .ok { st with pending := st.pending ++ [row], writeCalls := st.writeCalls + 1 }

/-- Embeds `csv.Writer.Flush`: moves all buffered rows to the output. -/
def csvFlush (st : CsvWriterState) : CsvWriterState :=
  { pending := [], flushed := st.flushed ++ st.pending, writeCalls := st.writeCalls }

/-- Embeds the consumed `sql.Rows` cursor: the result of `Columns()`,
the sequence of fetched rows (`Next` + `Scan`, each either decoded
values or a scan error), and the terminal `Err()` value. -/
structure Rows where
  columns : Except GoErr (List String)
  rowData : List (Except GoErr (List GoValue))
  errAfter : Option GoErr

/-- Embeds the `for rows.Next()` loop body of `Converter.Write`: scan,
format each cell with `toString`, run the optional pre-processor, write
unless skipped.  Returns the first error (the function returns without
flushing there) and the writer state reached. -/
def writeLoop (c : Converter) (columnNames : List String)
    (sinkErr : Nat → Option GoErr) :
    List (Except GoErr (List GoValue)) → CsvWriterState →
      Option GoErr × CsvWriterState
  | [], st => (none, st)
  | .error e :: _, st => (some e, st)
  | .ok values :: rest, st =>
    let row := values.map c.toString
    let pr :=
      match c.rowPreProcessor with
      | none => (true, row)
      | some p => p row columnNames
    if pr.1 then
      match csvWriterWrite sinkErr st pr.2 with
      | .error e => (some (("failed to write data row to csv ") ++ e), st)
      | .ok st2 => writeLoop c columnNames sinkErr rest st2
    else
      writeLoop c columnNames sinkErr rest st

/-- Embeds `Converter.Write` keeping the final writer state visible:
column lookup, optional header row, the row loop, the terminal
`rows.Err()` check, and the single `csvWriter.Flush()` that the source
places after the loop — the early `return err` paths (header write
failure, scan failure, row write failure) leave the state unflushed. -/
def Converter.run (c : Converter) (rows : Rows) (sinkErr : Nat → Option GoErr) :
    Option GoErr × CsvWriterState :=
  match rows.columns with
  | .error e => (some e, { pending := [], flushed := [], writeCalls := 0 })
  | .ok columnNames =>
    let st0 : CsvWriterState := { pending := [], flushed := [], writeCalls := 0 }
    let afterHeader : Except GoErr CsvWriterState :=
      if c.WriteHeaders then
        let headers := if c.Headers.length > 0 then c.Headers else columnNames
        match csvWriterWrite sinkErr st0 headers with
        | .error e => .error (("failed to write headers: ") ++ e)
        | .ok st1 => .ok st1
      else .ok st0
    match afterHeader with
    | .error e => (some e, st0)
    | .ok st1 =>
      match writeLoop c columnNames sinkErr rows.rowData st1 with
      | (some e, st2) => (some e, st2)
      | (none, st2) => (rows.errAfter, csvFlush st2)

/-- Embeds `Converter.Write` as observed by the caller: the returned
error and the rows present in the underlying output (flushed bytes). -/
def Converter.Write (c : Converter) (rows : Rows) (sinkErr : Nat → Option GoErr) :
    Option GoErr × List (List String) :=
  let r := c.run rows sinkErr
  (r.1, r.2.flushed)

/-- Embeds `Converter.WriteString`: runs `Write` into a fresh buffer and
returns the buffer contents together with the error. -/
def Converter.WriteString (c : Converter) (rows : Rows)
    (sinkErr : Nat → Option GoErr) : List (List String) × Option GoErr :=
  let r := c.Write rows sinkErr
  (r.2, r.1)

/-- Embeds the Go method `Converter.String` (lowercase here because the
name `String` is taken by the Lean type): returns the CSV on success and
the empty output on any error. -/
def Converter.string (c : Converter) (rows : Rows)
    (sinkErr : Nat → Option GoErr) : List (List String) :=
  let r := c.WriteString rows sinkErr
  match r.2 with
  | some _ => []
  | none => r.1

/-- Embeds `Converter.WriteFile`: `os.Create` outcome, then `Write`;
on a write error the file is closed and the write error returned (the
close error is discarded); on success the `Close` outcome is returned.
The boolean records whether the handle was closed. -/
def Converter.WriteFile (c : Converter) (rows : Rows)
    (sinkErr : Nat → Option GoErr) (createErr : Option GoErr)
    (closeErr : Option GoErr) : Option GoErr × Bool :=
  match createErr with
  | some e => (some e, false)
  | none =>
    match (c.Write rows sinkErr).1 with
    | some e => (some e, true)
    | none => (closeErr, true)

/-- Trace of the data rows the loop hands to the csv writer, starting at
write-call index k: stops at the first scan error or sink write failure,
skips rows the pre-processor rejects.  Mirrors `writeLoop` write for
write. -/
def dataWrites (c : Converter) (columnNames : List String)
    (sinkErr : Nat → Option GoErr) :
    List (Except GoErr (List GoValue)) → Nat → List (List String)
  | [], _ => []
  | .error _ :: _, _ => []
  | .ok values :: rest, k =>
    let row := values.map c.toString
    let pr :=
      match c.rowPreProcessor with
      | none => (true, row)
      | some p => p row columnNames
    if pr.1 then
      match sinkErr k with
      | some _ => []
      | none => pr.2 :: dataWrites c columnNames sinkErr rest (k + 1)
    else dataWrites c columnNames sinkErr rest k

theorem base64_decode_encode (alpha : List Char) (pad : Bool)
    (hchar : ∀ s, s < 64 → lookupIdx alpha (alpha.getD s ' ') = some s)
    (hne : ∀ s, s < 64 → alpha.getD s ' ' ≠ '=') :
    ∀ l : List Nat, (∀ b ∈ l, b < 256) →
      base64Decode alpha pad (base64Encode alpha pad l) = some l
  | [], _ => by simp [base64Encode, base64Decode]
  | [a], h => by
    have ha : a < 256 := h a (by simp)
    have h1 := hchar (a / 4) (by omega)
    have h2 := hchar (a % 4 * 16) (by omega)
    cases pad with
    | true =>
      simp only [base64Encode, if_pos rfl, base64Decode, h1, h2]
      simp
      omega
    | false =>
      simp only [base64Encode, base64Decode, h1, h2]
      simp
      omega
  | [a, b], h => by
    have ha : a < 256 := h a (by simp)
    have hb : b < 256 := h b (by simp)
    have h1 := hchar (a / 4) (by omega)
    have h2 := hchar (a % 4 * 16 + b / 16) (by omega)
    have h3 := hchar (b % 16 * 4) (by omega)
    have h3ne := hne (b % 16 * 4) (by omega)
    cases pad with
    | true =>
      simp only [base64Encode, base64Decode, h1, h2, h3, if_neg h3ne]
      simp
      omega
    | false =>
      simp only [base64Encode, base64Decode, h1, h2, h3, if_neg h3ne]
      simp
      omega
  | a :: b :: c :: rest, h => by
    have ha : a < 256 := h a (by simp)
    have hb : b < 256 := h b (by simp)
    have hc : c < 256 := h c (by simp)
    have ih := base64_decode_encode alpha pad hchar hne rest
      (fun x hx => h x (by simp [hx]))
    have h1 := hchar (a / 4) (by omega)
    have h2 := hchar (a % 4 * 16 + b / 16) (by omega)
    have h3 := hchar (b % 16 * 4 + c / 64) (by omega)
    have h4 := hchar (c % 64) (by omega)
    have h3ne := hne (b % 16 * 4 + c / 64) (by omega)
    have h4ne := hne (c % 64) (by omega)
    simp only [base64Encode, base64Decode, h1, h2, h3, h4, if_neg h3ne, if_neg h4ne, ih]
    simp
    omega

theorem hexDecode_encode :
    ∀ bs : List Nat, (∀ b ∈ bs, b < 256) → hexDecode (hexEncode bs) = some bs
  | [], _ => by simp [hexEncode, hexDecode]
  | b :: rest, h => by
    have hb : b < 256 := h b (by simp)
    have h1 : ∀ s, s < 16 → lookupIdx hexDigits (hexDigits.getD s ' ') = some s := by decide
    have ih := hexDecode_encode rest (fun x hx => h x (by simp [hx]))
    simp only [hexEncode, hexDecode, h1 (b / 16) (by omega), h1 (b % 16) (by omega), ih]
    simp
    omega

theorem hexEncode_length : ∀ bs : List Nat, (hexEncode bs).length = 2 * bs.length
  | [] => by simp [hexEncode]
  | b :: rest => by simp [hexEncode, hexEncode_length rest]; omega

theorem hexEncode_mem : ∀ bs : List Nat, (∀ b ∈ bs, b < 256) →
    ∀ ch ∈ hexEncode bs, ch ∈ hexDigits
  | [], _, _, hch => by simp [hexEncode] at hch
  | b :: rest, h, ch, hch => by
    have hb : b < 256 := h b (by simp)
    have hd : ∀ n, n < 16 → hexDigits.getD n ' ' ∈ hexDigits := by decide
    simp only [hexEncode, List.mem_cons] at hch
    rcases hch with hh | hh | hh
    · subst hh; exact hd (b / 16) (by omega)
    · subst hh; exact hd (b % 16) (by omega)
    · exact hexEncode_mem rest (fun x hx => h x (by simp [hx])) ch hh

theorem rdropWhile_append_rtakeWhile (p : Char → Bool) (l : List Char) :
    List.rdropWhile p l ++ List.rtakeWhile p l = l := by
  rw [List.rdropWhile, List.rtakeWhile, ← List.reverse_append,
    List.takeWhile_append_dropWhile, List.reverse_reverse]

theorem trimQuotes_spec (s : String) :
    ∃ n m, s.data = List.replicate n '"' ++ (trimQuotes s).data ++ List.replicate m '"' ∧
      (∀ ch, (trimQuotes s).data.head? = some ch → ch ≠ '"') ∧
      (∀ ch, (trimQuotes s).data.getLast? = some ch → ch ≠ '"') := by
  have hdata : (trimQuotes s).data =
      List.rdropWhile (fun ch => ch = '"') (s.data.dropWhile (fun ch => ch = '"')) := rfl
  refine ⟨(s.data.takeWhile (fun ch => ch = '"')).length,
    (List.rtakeWhile (fun ch => ch = '"') (s.data.dropWhile (fun ch => ch = '"'))).length,
    ?_, ?_, ?_⟩
  · rw [hdata]
    have h2 := rdropWhile_append_rtakeWhile (fun ch => ch = '"')
      (s.data.dropWhile (fun ch => ch = '"'))
    have h3 : s.data.takeWhile (fun ch => ch = '"') =
        List.replicate (s.data.takeWhile (fun ch => ch = '"')).length '"' :=
      List.eq_replicate_of_mem (fun b hb => by
        have := List.mem_takeWhile_imp hb
        simpa using this)
    have h4 : List.rtakeWhile (fun ch => ch = '"') (s.data.dropWhile (fun ch => ch = '"')) =
        List.replicate (List.rtakeWhile (fun ch => ch = '"')
          (s.data.dropWhile (fun ch => ch = '"'))).length '"' :=
      List.eq_replicate_of_mem (fun b hb => by
        have := List.mem_rtakeWhile_imp hb
        simpa using this)
    conv_lhs => rw [← List.takeWhile_append_dropWhile (fun ch => ch = '"') s.data]
    rw [← h3, ← h4, List.append_assoc, h2]
  · intro ch hch
    rw [hdata] at hch
    obtain ⟨t, ht⟩ := List.rdropWhile_prefix (fun ch => ch = '"')
      (s.data.dropWhile (fun ch => ch = '"'))
    have hAhead : (s.data.dropWhile (fun ch => ch = '"')).head? = some ch := by
      rw [← ht]
      cases hcr : List.rdropWhile (fun ch => ch = '"')
          (s.data.dropWhile (fun ch => ch = '"')) with
      | nil => rw [hcr] at hch; simp at hch
      | cons x xs =>
        rw [hcr] at hch
        simp only [List.head?_cons, Option.some.injEq] at hch
        simp [hch]
    have hAne : s.data.dropWhile (fun ch => ch = '"') ≠ [] := by
      intro hnil
      rw [hnil] at hAhead
      simp at hAhead
    have hfalse := List.head_dropWhile_not (fun ch => ch = '"') s.data hAne
    have hhead : (s.data.dropWhile (fun ch => ch = '"')).head hAne = ch := by
      have := List.head?_eq_head hAne
      rw [this] at hAhead
      simpa using hAhead
    rw [hhead] at hfalse
    simpa using hfalse
  · intro ch hch
    rw [hdata] at hch
    have hne : List.rdropWhile (fun ch => ch = '"')
        (s.data.dropWhile (fun ch => ch = '"')) ≠ [] := by
      intro hnil
      rw [hnil] at hch
      simp at hch
    have hlast := List.rdropWhile_last_not (fun ch => ch = '"')
      (s.data.dropWhile (fun ch => ch = '"')) hne
    have hgl : (List.rdropWhile (fun ch => ch = '"')
        (s.data.dropWhile (fun ch => ch = '"'))).getLast hne = ch := by
      have := List.getLast?_eq_getLast _ hne
      rw [this] at hch
      simpa using hch
    rw [hgl] at hlast
    simpa using hlast

theorem csvFlush_written (st : CsvWriterState) : (csvFlush st).written = st.written := by
  simp [csvFlush, CsvWriterState.written]

theorem writeLoop_written (c : Converter) (cols : List String)
    (sinkErr : Nat → Option GoErr) :
    ∀ rd st, ((writeLoop c cols sinkErr rd st).2).written =
      st.written ++ dataWrites c cols sinkErr rd st.writeCalls
  | [], st => by simp [writeLoop, dataWrites]
  | .error e :: rest, st => by simp [writeLoop, dataWrites]
  | .ok values :: rest, st => by
    have ih := writeLoop_written c cols sinkErr rest
    simp only [writeLoop, dataWrites, csvWriterWrite]
    cases hp : c.rowPreProcessor with
    | none =>
      cases hk : sinkErr st.writeCalls with
      | some e => simp [hk]
      | none =>
        simp only [hk]
        simp only [if_pos]
        rw [ih]
        simp [CsvWriterState.written, List.append_assoc]
    | some p =>
      cases hkeep : (p (values.map c.toString) cols).1 with
      | true =>
        simp only [hkeep, if_pos]
        cases hk : sinkErr st.writeCalls with
        | some e => simp [hk]
        | none =>
          simp only [hk]
          rw [ih]
          simp [CsvWriterState.written, List.append_assoc]
      | false =>
        simp only [hkeep, Bool.false_eq_true, if_false]
        rw [ih]

theorem writeLoop_flushed (c : Converter) (cols : List String)
    (sinkErr : Nat → Option GoErr) :
    ∀ rd st, ((writeLoop c cols sinkErr rd st).2).flushed = st.flushed
  | [], _ => rfl
  | .error e :: _, _ => rfl
  | .ok values :: rest, st => by
    have ih := writeLoop_flushed c cols sinkErr rest
    simp only [writeLoop, csvWriterWrite]
    cases hp : c.rowPreProcessor with
    | none =>
      cases hk : sinkErr st.writeCalls with
      | some e => simp [hk]
      | none =>
        simp only [hk, if_pos]
        rw [ih]
    | some p =>
      cases hkeep : (p (values.map c.toString) cols).1 with
      | true =>
        simp only [hkeep, if_pos]
        cases hk : sinkErr st.writeCalls with
        | some e => simp [hk]
        | none =>
          simp only [hk]
          rw [ih]
      | false =>
        simp only [hkeep, Bool.false_eq_true, if_false]
        rw [ih]

/-- C3: with `WriteHeaders` true (and the first sink write succeeding)
exactly one header row is handed to the csv writer first — the
`Headers` override when non-empty, otherwise the cursor's column names —
followed only by the loop's data-row writes; with `WriteHeaders` false
the write trace consists of the data-row writes alone. -/
theorem header_row_emission (c : Converter) (rows : Rows)
    (sinkErr : Nat → Option GoErr) (cols : List String)
    (hcols : rows.columns = .ok cols) :
    (c.WriteHeaders = true → sinkErr 0 = none →
      ((c.run rows sinkErr).2).written =
        (if c.Headers.length > 0 then c.Headers else cols) ::
          dataWrites c cols sinkErr rows.rowData 1) ∧
    (c.WriteHeaders = false →
      ((c.run rows sinkErr).2).written = dataWrites c cols sinkErr rows.rowData 0) := by
  constructor
  · intro hw hs0
    simp only [Converter.run, hcols, hw, if_pos, csvWriterWrite, hs0]
    rcases hlp : writeLoop c cols sinkErr rows.rowData
        { pending := [] ++ [if c.Headers.length > 0 then c.Headers else cols],
          flushed := [], writeCalls := 0 + 1 } with ⟨e?, st2⟩
    have hwr := writeLoop_written c cols sinkErr rows.rowData
      { pending := [] ++ [if c.Headers.length > 0 then c.Headers else cols],
        flushed := [], writeCalls := 0 + 1 }
    rw [hlp] at hwr
    cases e? with
    | some e =>
      simp only [hlp]
      rw [hwr]
      simp [CsvWriterState.written]
    | none =>
      simp only [hlp]
      rw [csvFlush_written, hwr]
      simp [CsvWriterState.written]
  · intro hw
    simp only [Converter.run, hcols, hw, Bool.false_eq_true, if_false]
    rcases hlp : writeLoop c cols sinkErr rows.rowData
        { pending := [], flushed := [], writeCalls := 0 } with ⟨e?, st2⟩
    have hwr := writeLoop_written c cols sinkErr rows.rowData
      { pending := [], flushed := [], writeCalls := 0 }
    rw [hlp] at hwr
    cases e? with
    | some e =>
      simp only [hlp]
      rw [hwr]
      simp [CsvWriterState.written]
    | none =>
      simp only [hlp]
      rw [csvFlush_written, hwr]
      simp [CsvWriterState.written]

/-- Sink whose writes always succeed. -/
def sinkOk : Nat → Option GoErr := fun _ => none

/-- Concrete two-column cursor whose second data row fails to decode
(the scenario named by the spec). -/
def rowsDecodeFail : Rows :=
  { columns := .ok [("id"), ("name")]
    rowData := [.ok [.vint 1, .vstring ("Alice")], .error ("decode error")]
    errAfter := none }

/-- Concrete cursor that reports a terminal iteration error after its
(empty) row stream. -/
def rowsIterErr : Rows :=
  { columns := .ok [("a")]
    rowData := []
    errAfter := some ("iteration error") }

/-- Concrete one-row cursor with a clean terminal stream. -/
def rowsOneRow : Rows :=
  { columns := .ok [("id"), ("name")]
    rowData := [.ok [.vint 1, .vstring ("Alice")]]
    errAfter := none }

/-- Writer state at entry to the row loop of `Converter.run` when the
header phase succeeded: the header row (override or column names)
buffered when `WriteHeaders` is on, the fresh state otherwise. -/
def startState (c : Converter) (cols : List String) : CsvWriterState :=
  if c.WriteHeaders then
    { pending := [if c.Headers.length > 0 then c.Headers else cols]
      flushed := []
      writeCalls := 1 }
  else { pending := [], flushed := [], writeCalls := 0 }

/-- Sink whose n-th write call fails with a disk-full error and all
other calls succeed. -/
def sinkFailAt (n : Nat) : Nat → Option GoErr :=
  fun k => if k = n then some ("disk full") else none

/-- C1 as claimed is false: on a decode failure on the second data row
the source returns before reaching `csvWriter.Flush()`, so the flushed
output does NOT contain the header and first row — it is empty. -/
theorem flush_before_return_counterexample :
    New.Write rowsDecodeFail sinkOk = (some ("decode error"), []) ∧
    ([] : List (List String)) ≠ [[("id"), ("name")], [("1"), ("Alice")]] :=
  ⟨rfl, by decide⟩

/-- C1 amended: the sink's buffering is flushed only when the row loop
completes.  Given columns resolve: (1) a header write failure returns
the wrapped error with nothing flushed; (2) any failure inside the loop
— a scan (decode) failure or a data-row write failure — makes `Write`
return that error with empty flushed output, the final writer state
being exactly the loop's unflushed state; (3) when the loop completes,
the buffer is flushed — the output holds every row handed to the writer
— and the terminal iteration error, if any, is returned; (4) in
particular a decode failure on the second data row yields empty output
and the decode error while the header (when enabled) and the first row
sit in the unflushed buffer. -/
theorem flush_only_after_loop (c : Converter) (rows : Rows)
    (sinkErr : Nat → Option GoErr) (cols : List String)
    (hcols : rows.columns = .ok cols) :
    (∀ e, c.WriteHeaders = true → sinkErr 0 = some e →
      c.Write rows sinkErr = (some (("failed to write headers: ") ++ e), [])) ∧
    (∀ e st2, (c.WriteHeaders = true → sinkErr 0 = none) →
      writeLoop c cols sinkErr rows.rowData (startState c cols) = (some e, st2) →
      c.Write rows sinkErr = (some e, []) ∧
        ((c.run rows sinkErr).2).written = st2.written) ∧
    (∀ st2, (c.WriteHeaders = true → sinkErr 0 = none) →
      writeLoop c cols sinkErr rows.rowData (startState c cols) = (none, st2) →
      c.Write rows sinkErr = (rows.errAfter, st2.written)) ∧
    (∀ vs e, (∀ k, sinkErr k = none) → c.rowPreProcessor = none →
      rows.rowData = [.ok vs, .error e] →
      c.Write rows sinkErr = (some e, []) ∧
        ((c.run rows sinkErr).2).written =
          (if c.WriteHeaders = true then
            [if c.Headers.length > 0 then c.Headers else cols] else []) ++
            [vs.map c.toString]) := by
  refine ⟨?_, ?_, ?_, ?_⟩
  · intro e hw hs0
    simp [Converter.Write, Converter.run, hcols, hw, csvWriterWrite, hs0]
  · intro e st2 hdr0 hloop
    have hfl : st2.flushed = (startState c cols).flushed := by
      have h := writeLoop_flushed c cols sinkErr rows.rowData (startState c cols)
      rw [hloop] at h
      exact h
    cases hw : c.WriteHeaders with
    | true =>
      have hs0 := hdr0 hw
      simp only [startState, hw, if_pos] at hloop hfl
      simp [Converter.Write, Converter.run, hcols, hw, csvWriterWrite, hs0,
        hloop, hfl, CsvWriterState.written]
    | false =>
      simp only [startState, hw, Bool.false_eq_true, if_false] at hloop hfl
      simp [Converter.Write, Converter.run, hcols, hw, hloop, hfl,
        CsvWriterState.written]
  · intro st2 hdr0 hloop
    cases hw : c.WriteHeaders with
    | true =>
      have hs0 := hdr0 hw
      simp only [startState, hw, if_pos] at hloop
      simp [Converter.Write, Converter.run, hcols, hw, csvWriterWrite, hs0,
        hloop, csvFlush, CsvWriterState.written]
    | false =>
      simp only [startState, hw, Bool.false_eq_true, if_false] at hloop
      simp [Converter.Write, Converter.run, hcols, hw, hloop, csvFlush,
        CsvWriterState.written]
  · intro vs e hsink hp hdata
    cases hw : c.WriteHeaders with
    | true =>
      simp [Converter.Write, Converter.run, hcols, hw, hdata, hp, csvWriterWrite,
        hsink, writeLoop, CsvWriterState.written]
    | false =>
      simp [Converter.Write, Converter.run, hcols, hw, hdata, hp, csvWriterWrite,
        hsink, writeLoop, CsvWriterState.written]

/-- Witness for the amended C1 exercising the three no-flush failure
paths at concrete inputs: a header write failure, a data-row write
failure, and the decode failure on the second data row (with its
unflushed buffered rows). -/
theorem flush_only_after_loop_witness :
    New.Write rowsOneRow (sinkFailAt 0) =
      (some (("failed to write headers: ") ++ ("disk full")), []) ∧
    New.Write rowsOneRow (sinkFailAt 1) =
      (some (("failed to write data row to csv ") ++ ("disk full")), []) ∧
    New.Write rowsDecodeFail sinkOk = (some ("decode error"), []) ∧
    ((New.run rowsDecodeFail sinkOk).2).written =
      (if New.WriteHeaders = true then
        [if New.Headers.length > 0 then New.Headers else [("id"), ("name")]] else []) ++
        [[.vint 1, .vstring ("Alice")].map New.toString] := by
  have t0 := flush_only_after_loop New rowsOneRow (sinkFailAt 0) [("id"), ("name")] rfl
  have t1 := flush_only_after_loop New rowsOneRow (sinkFailAt 1) [("id"), ("name")] rfl
  have t2 := flush_only_after_loop New rowsDecodeFail sinkOk [("id"), ("name")] rfl
  refine ⟨t0.1 ("disk full") rfl rfl,
    (t1.2.1 (("failed to write data row to csv ") ++ ("disk full"))
      (startState New [("id"), ("name")]) (fun _ => rfl) rfl).1,
    (t2.2.2.2 [.vint 1, .vstring ("Alice")] ("decode error") (fun _ => rfl) rfl rfl).1,
    (t2.2.2.2 [.vint 1, .vstring ("Alice")] ("decode error") (fun _ => rfl) rfl rfl).2⟩

/-- C6: a null (absent) value formats to the empty string under every
configuration. -/
theorem null_formats_empty (c : Converter) : c.toString .vnull = ("") := rfl

/-- C8: the formatter is deterministic — two calls with identical
configuration and value give identical strings — and total: every value
of the supported type universe resolves to some string. -/
theorem toString_deterministic_total (c1 c2 : Converter) (v1 v2 : GoValue)
    (hc : c1 = c2) (hv : v1 = v2) :
    c1.toString v1 = c2.toString v2 ∧ ∃ s, c1.toString v1 = s := by
  subst hc
  subst hv
  exact ⟨rfl, ⟨c1.toString v1, rfl⟩⟩

/-- Witness for C8 at a concrete value. -/
theorem toString_deterministic_total_witness :
    New.toString (.vbool true) = New.toString (.vbool true) ∧
      ∃ s, New.toString (.vbool true) = s :=
  toString_deterministic_total New New (.vbool true) (.vbool true) rfl rfl

theorem writeLoop_skip_all (c : Converter) (cols : List String)
    (sinkErr : Nat → Option GoErr)
    (p : List String → List String → Bool × List String)
    (hp : c.rowPreProcessor = some p)
    (hskip : ∀ row cns, (p row cns).1 = false) :
    ∀ rd st, (∀ r ∈ rd, ∃ vs, r = .ok vs) →
      writeLoop c cols sinkErr rd st = (none, st)
  | [], st, _ => by simp [writeLoop]
  | .error e :: rest, st, hok => by
    obtain ⟨vs, hv⟩ := hok (.error e) (by simp)
    exact Except.noConfusion hv
  | .ok values :: rest, st, hok => by
    have ih := writeLoop_skip_all c cols sinkErr p hp hskip rest st
      (fun r hr => hok r (by simp [hr]))
    simp only [writeLoop, hp, hskip, Bool.false_eq_true, if_false]
    exact ih

/-- C7: a pre-processor that skips every row leaves only the header row
(when headers are on) and nothing at all otherwise; skipped rows are
never written and processing runs to completion without error. -/
theorem skip_all_yields_header_only (c : Converter) (rows : Rows)
    (sinkErr : Nat → Option GoErr) (cols : List String)
    (p : List String → List String → Bool × List String)
    (hcols : rows.columns = .ok cols)
    (hp : c.rowPreProcessor = some p)
    (hskip : ∀ row cns, (p row cns).1 = false)
    (hok : ∀ r ∈ rows.rowData, ∃ vs, r = .ok vs)
    (hsink0 : sinkErr 0 = none)
    (herr : rows.errAfter = none) :
    c.Write rows sinkErr =
      (none, if c.WriteHeaders = true then
        [if c.Headers.length > 0 then c.Headers else cols] else []) := by
  have hloop : ∀ st, writeLoop c cols sinkErr rows.rowData st = (none, st) :=
    fun st => writeLoop_skip_all c cols sinkErr p hp hskip rows.rowData st hok
  cases hw : c.WriteHeaders with
  | true =>
    simp [Converter.Write, Converter.run, hcols, hw, csvWriterWrite, hsink0,
      hloop, csvFlush, herr]
  | false =>
    simp [Converter.Write, Converter.run, hcols, hw, hloop, csvFlush, herr]

/-- Pre-processor that skips every row. -/
def skipAllPre : List String → List String → Bool × List String :=
  fun _ _ => (false, [])

/-- Default converter carrying the skip-everything pre-processor. -/
def cSkipAll : Converter := { New with rowPreProcessor := some skipAllPre }

/-- Converter with a header override. -/
def cHdrOverride : Converter := { New with Headers := [("colA")] }

/-- Witness for C3: with the override set, the write trace starts with
the override header and continues with the formatted data row. -/
theorem header_row_emission_witness :
    rowsOneRow.columns = .ok [("id"), ("name")] ∧
    ((cHdrOverride.run rowsOneRow sinkOk).2).written =
      (if cHdrOverride.Headers.length > 0 then cHdrOverride.Headers
        else [("id"), ("name")]) ::
        dataWrites cHdrOverride [("id"), ("name")] sinkOk rowsOneRow.rowData 1 ∧
    ((cHdrOverride.run rowsOneRow sinkOk).2).written =
      [[("colA")], [("1"), ("Alice")]] := by
  refine ⟨rfl, ?_, rfl⟩
  exact (header_row_emission cHdrOverride rowsOneRow sinkOk [("id"), ("name")] rfl).1 rfl rfl

/-- Witness for C7 at a concrete conversion: only the header row
survives. -/
theorem skip_all_yields_header_only_witness :
    cSkipAll.Write rowsOneRow sinkOk =
      (none, if cSkipAll.WriteHeaders = true then
        [if cSkipAll.Headers.length > 0 then cSkipAll.Headers
          else [("id"), ("name")]] else []) :=
  skip_all_yields_header_only cSkipAll rowsOneRow sinkOk [("id"), ("name")] skipAllPre
    rfl rfl (fun _ _ => rfl)
    (fun r hr => by
      simp only [rowsOneRow, List.mem_singleton] at hr
      exact ⟨[.vint 1, .vstring ("Alice")], hr⟩)
    rfl rfl

/-- C9: when file creation succeeded the handle is closed on every exit
path; a conversion error takes precedence over any close error; on
conversion success the close outcome is what the caller receives. -/
theorem writefile_close_behavior (c : Converter) (rows : Rows)
    (sinkErr : Nat → Option GoErr) (closeErr : Option GoErr) :
    (c.WriteFile rows sinkErr none closeErr).2 = true ∧
    (∀ e, (c.Write rows sinkErr).1 = some e →
      (c.WriteFile rows sinkErr none closeErr).1 = some e) ∧
    ((c.Write rows sinkErr).1 = none →
      (c.WriteFile rows sinkErr none closeErr).1 = closeErr) := by
  refine ⟨?_, ?_, ?_⟩
  · cases h : (c.Write rows sinkErr).1 with
    | none => simp [Converter.WriteFile, h]
    | some e => simp [Converter.WriteFile, h]
  · intro e he
    simp [Converter.WriteFile, he]
  · intro he
    simp [Converter.WriteFile, he]

/-- Witness for C9: a failing conversion returns the conversion error
(close error discarded) with the handle closed; a clean conversion
surfaces the close error. -/
theorem writefile_close_behavior_witness :
    (New.WriteFile rowsDecodeFail sinkOk none (some ("close error"))).2 = true ∧
    (New.WriteFile rowsDecodeFail sinkOk none (some ("close error"))).1 =
      some ("decode error") ∧
    (New.WriteFile rowsOneRow sinkOk none (some ("close error"))).1 =
      some ("close error") :=
  ⟨(writefile_close_behavior New rowsDecodeFail sinkOk (some ("close error"))).1,
    (writefile_close_behavior New rowsDecodeFail sinkOk
      (some ("close error"))).2.1 ("decode error") rfl,
    (writefile_close_behavior New rowsOneRow sinkOk (some ("close error"))).2.2 rfl⟩

/-- C10: the fmt-friendly string entry point swallows conversion
errors: on any failure it returns empty output, discarding whatever
partial CSV the conversion produced. -/
theorem string_swallows_errors (c : Converter) (rows : Rows)
    (sinkErr : Nat → Option GoErr)
    (h : (c.WriteString rows sinkErr).2.isSome = true) :
    c.string rows sinkErr = [] := by
  cases he : (c.WriteString rows sinkErr).2 with
  | some e => simp [Converter.string, he]
  | none =>
    rw [he] at h
    simp at h

/-- Witness for C10: a terminal iteration error leaves non-empty partial
output in the buffer-backed variant, yet the string entry point returns
nothing. -/
theorem string_swallows_errors_witness :
    ((New.WriteString rowsIterErr sinkOk).2.isSome = true) ∧
    (New.WriteString rowsIterErr sinkOk).1 = [[("a")]] ∧
    New.string rowsIterErr sinkOk = [] :=
  ⟨rfl, rfl, string_swallows_errors New rowsIterErr sinkOk rfl⟩

theorem lookupIdx_stdAlphabet :
    ∀ s, s < 64 → lookupIdx stdAlphabet (stdAlphabet.getD s ' ') = some s := by
  decide

theorem lookupIdx_urlAlphabet :
    ∀ s, s < 64 → lookupIdx urlAlphabet (urlAlphabet.getD s ' ') = some s := by
  decide

theorem stdAlphabet_ne_pad : ∀ s, s < 64 → stdAlphabet.getD s ' ' ≠ '=' := by
  decide

theorem urlAlphabet_ne_pad : ∀ s, s < 64 → urlAlphabet.getD s ' ' ≠ '=' := by
  decide

/-- C5: each base64 variant of the byte formatter round-trips through
the matching strict decoder, and the hex variant round-trips through the
hex decoder while producing exactly two lowercase-hex characters per
byte. -/
theorem byte_encoding_roundtrip (bs : List Nat) (h : ∀ b ∈ bs, b < 256) :
    base64Decode stdAlphabet true
      (({ New with byteArrayConverter := StdBase64 }).toString (.vbytes bs)).data = some bs ∧
    base64Decode urlAlphabet true
      (({ New with byteArrayConverter := URLBase64 }).toString (.vbytes bs)).data = some bs ∧
    base64Decode stdAlphabet false
      (({ New with byteArrayConverter := RawStdBase64 }).toString (.vbytes bs)).data = some bs ∧
    base64Decode urlAlphabet false
      (({ New with byteArrayConverter := RawURLBase64 }).toString (.vbytes bs)).data = some bs ∧
    hexDecode (({ New with byteArrayConverter := HexConv }).toString (.vbytes bs)).data = some bs ∧
    (({ New with byteArrayConverter := HexConv }).toString (.vbytes bs)).data.length =
      2 * bs.length ∧
    (∀ ch ∈ (({ New with byteArrayConverter := HexConv }).toString (.vbytes bs)).data,
      ch ∈ hexDigits) := by
  refine ⟨?_, ?_, ?_, ?_, ?_, ?_, ?_⟩
  · exact base64_decode_encode stdAlphabet true lookupIdx_stdAlphabet stdAlphabet_ne_pad bs h
  · exact base64_decode_encode urlAlphabet true lookupIdx_urlAlphabet urlAlphabet_ne_pad bs h
  · exact base64_decode_encode stdAlphabet false lookupIdx_stdAlphabet stdAlphabet_ne_pad bs h
  · exact base64_decode_encode urlAlphabet false lookupIdx_urlAlphabet urlAlphabet_ne_pad bs h
  · exact hexDecode_encode bs h
  · exact hexEncode_length bs
  · exact hexEncode_mem bs h

/-- Witness for C5: the spec's hex scenario — bytes 0xAB 0xCD render as
abcd and decode back. -/
theorem byte_encoding_roundtrip_witness :
    (∀ b ∈ [171, 205], b < 256) ∧
    ({ New with byteArrayConverter := HexConv }).toString (.vbytes [171, 205]) = ("abcd") ∧
    hexDecode (({ New with byteArrayConverter := HexConv }).toString
      (.vbytes [171, 205])).data = some [171, 205] :=
  ⟨by decide, rfl, (byte_encoding_roundtrip [171, 205] (by decide)).2.2.2.2.1⟩

/-- C2 as claimed is false: the source uses `strings.Trim`, which strips
ALL leading and trailing double-quotes, so the marshaled form with two
outer quote pairs loses both pairs, not just the outermost one. -/
theorem strip_one_quote_counterexample :
    New.toString (.vother (some (.ok ("\"\"abc\"\""))) none (.ok ("")) ("")) = ("abc") ∧
    (("abc") : String) ≠ ("\"abc\"") :=
  ⟨rfl, by decide⟩

/-- C2 amended: on custom-marshal and generic-fallback output the
formatter strips ALL leading and ALL trailing double-quote characters:
the marshaled string splits as leading quotes ++ result ++ trailing
quotes, and the result neither starts nor ends with a quote. -/
theorem toString_trims_all_outer_quotes (c : Converter) (s : String)
    (st : Option String) (jm : Except Unit String) (r : String) :
    c.toString (.vother (some (.ok s)) st jm r) = trimQuotes s ∧
    c.toString (.vother none none (.ok s) r) = trimQuotes s ∧
    (∃ n m, s.data = List.replicate n '"' ++ (trimQuotes s).data ++ List.replicate m '"' ∧
      (∀ ch, (trimQuotes s).data.head? = some ch → ch ≠ '"') ∧
      (∀ ch, (trimQuotes s).data.getLast? = some ch → ch ≠ '"')) :=
  ⟨rfl, rfl, trimQuotes_spec s⟩

/-- Witness for the amended C2 at the double-quoted marshaled form. -/
theorem toString_trims_all_outer_quotes_witness :
    New.toString (.vother (some (.ok ("\"\"abc\"\""))) none (.ok ("x")) ("x")) =
      trimQuotes ("\"\"abc\"\"") ∧
    trimQuotes ("\"\"abc\"\"") = ("abc") :=
  ⟨(toString_trims_all_outer_quotes New ("\"\"abc\"\"") none (.ok ("x")) ("x")).1, rfl⟩
